import Mathlib

/-!
# Verification of the `web-poetic-cam` retrieval / visualization pipeline

Shallow embedding of the Python sources:

* `src/scripts/retriever.py` — `get_embedding`, `retrieve_poems`
* `src/scripts/visualizer.py` — `fetch_universe_vectors`,
  `LatentSpaceVisualizer.__init__`, `visualize_query_context`
* `src/scripts/vision_client.py` — `analyze_image`
* `src/app.py` — `run_vision_cached`, `load_universe_vectors`, the
  session-state-gated processing pipeline of the main page

External services (Gemini embeddings, the Pinecone index, the Groq vision
model) are modelled as explicit function parameters returning
`Except String _` (an `Except.error` models a raised exception inside the
client library).  Vectors are modelled over `ℚ` (exact arithmetic standing
in for the floating-point values).
-/

namespace PoeticCam

/-- A Pinecone match dictionary, as consumed by `retrieve_poems` and
`visualize_query_context`.  `values` is `none` when the dict has no
`'values'` key; `title` is `none` when `metadata` has no `'title'` key. -/
structure PineconeMatch where
  values : Option (List ℚ)
  title : Option String
  score : ℚ
deriving DecidableEq

/-- Outcome of one call to the Gemini embedding service
(`genai.embed_content` followed by the `result['embedding']` lookup);
`Except.error` models any raised exception. -/
abbrev EmbedSvc := String → Except String (List ℚ)

/-- Outcome of one call to `index.query` on the Pinecone index, given the
query vector and `top_k`; `Except.error` models a raised exception, and
`Except.ok ms` models a response whose match list is `ms`. -/
abbrev IndexSvc := List ℚ → ℕ → Except String (List PineconeMatch)

/-- `retriever.get_embedding` (src/scripts/retriever.py lines 22–33):
calls the embedding service; on any exception it prints and returns `[]`. -/
def get_embedding (embedSvc : EmbedSvc) (text : String) : List ℚ :=
  match embedSvc text with
  | .ok v => v
  | .error _ => []

/-- The default `top_k` of `retrieve_poems` (its signature is
`def retrieve_poems(query_narrative, top_k=3)`). -/
def default_top_k : ℕ := 3

/-- `retriever.retrieve_poems` (src/scripts/retriever.py lines 35–69):
embed the narrative; on an empty vector return `[]`; query the index,
returning `[]` on an exception; on zero matched items return `[]`; otherwise the
loop appends every match of the response, in response order, to
`found_poems` and returns it. -/
def retrieve_poems (embedSvc : EmbedSvc) (indexSvc : IndexSvc)
    (query_narrative : String) (top_k : ℕ) : List PineconeMatch :=
  let vector := get_embedding embedSvc query_narrative
  if vector = [] then []
  else
    match indexSvc vector top_k with
    | .error _ => []
    | .ok results =>
      if results = [] then []
      else results.foldl (fun found_poems m => found_poems ++ [m]) []

/-- The fold in `retrieve_poems` appends each match in order, so the
returned list is the response itself. -/
theorem retrieve_fold_eq (ms : List PineconeMatch) :
    ms.foldl (fun found_poems m => found_poems ++ [m]) [] = ms := by
  have h : ∀ (l acc : List PineconeMatch),
      l.foldl (fun found_poems m => found_poems ++ [m]) acc = acc ++ l := by
    intro l
    induction l with
    | nil => intro acc; simp
    | cons a as ih => intro acc; simp [List.foldl, ih]
  simpa using h ms []

end PoeticCam

namespace PoeticCam

/-! ## Visualizer (src/scripts/visualizer.py) -/

/-- The fixed query `fetch_universe_vectors` and `load_universe_vectors`
send to `retrieve_poems` (top_k = 50). -/
def universe_query : String := "Life Death Eternity Nature Soul Love Time"

/-- Whether a match dict carries a `'values'` key (the Python test
`'values' in item`). -/
def hasValues (item : PineconeMatch) : Bool := item.values.isSome

/-- `visualizer.fetch_universe_vectors` (src/scripts/visualizer.py lines
15–23): the comprehension `[item['values'] for item in results if 'values'
in item]` over the 50-point retrieval; the `except` branch (returning
`[]`) is unreachable because the embedded `retrieve_poems` is total. -/
def fetch_universe_vectors (embedSvc : EmbedSvc) (indexSvc : IndexSvc) :
    List (List ℚ) :=
  ((retrieve_poems embedSvc indexSvc universe_query 50).filter hasValues).map
    (fun item => item.values.getD [])

/-- `app.load_universe_vectors` (src/app.py lines 42–49): the same
comprehension over the same 50-point retrieval. -/
def load_universe_vectors (embedSvc : EmbedSvc) (indexSvc : IndexSvc) :
    List (List ℚ) :=
  ((retrieve_poems embedSvc indexSvc universe_query 50).filter hasValues).map
    (fun item => item.values.getD [])

/-- Column `j` of the data matrix (`numpy` guarantees homogeneous row
lengths, so out-of-range defaulting never fires on well-formed input). -/
def column (X : List (List ℚ)) (j : ℕ) : List ℚ :=
  X.map (fun row => row.getD j 0)

/-- Arithmetic mean of a column (`StandardScaler.mean_`). -/
def colMean (X : List (List ℚ)) (j : ℕ) : ℚ :=
  (column X j).sum / (column X j).length

/-- Biased variance of a column (`StandardScaler.var_`). -/
def colVar (X : List (List ℚ)) (j : ℕ) : ℚ :=
  ((column X j).map (fun x => (x - colMean X j) ^ 2)).sum /
    (column X j).length

/-- `StandardScaler.scale_`: the square root of the column variance,
except that zero-variance (constant) columns get scale 1 — sklearn's
`_handle_zeros_in_scale` guard against division by zero.  The square root
on the non-constant columns is abstracted as the parameter `sq`. -/
def colScale (sq : ℚ → ℚ) (X : List (List ℚ)) (j : ℕ) : ℚ :=
  if colVar X j = 0 then 1 else sq (colVar X j)

/-- `StandardScaler.fit_transform` (src/scripts/visualizer.py line 76):
every entry becomes `(x - mean) / scale` of its column. -/
def fit_transform (sq : ℚ → ℚ) (X : List (List ℚ)) : List (List ℚ) :=
  X.map (fun row =>
    (List.range row.length).map (fun j =>
      (row.getD j 0 - colMean X j) / colScale sq X j))

/-- One row of the plotted data frame: 3-D coordinates plus the `Label`,
`Type` and `Size` columns attached positionally. -/
structure ProjectedPoint where
  coords : List ℚ
  label : String
  ptype : String
  size : ℕ
deriving DecidableEq

/-- Positional zip of the four data-frame columns (pandas aligns the
coordinate rows with the `labels`/`types`/`sizes` lists by position). -/
def mkPoints : List (List ℚ) → List String → List String → List ℕ →
    List ProjectedPoint
  | c :: cs, l :: ls, t :: ts, s :: ss =>
    ⟨c, l, t, s⟩ :: mkPoints cs ls ts ss
  | _, _, _, _ => []

/-- `LatentSpaceVisualizer.visualize_query_context` (src/scripts/
visualizer.py lines 35–86): assemble background points (label "Latent
Background", type "Universe", size 3), then the retrieved items that carry
a `'values'` key (label `metadata.get('title', 'Match')`, type "Memory",
size 10), then the query vector (label "Your Vision", type "Sensation",
size 15); return `none` when fewer than 3 points were assembled, else
standardize, reduce with PCA (`pcaT` abstracts `PCA(n_components=3)
.fit_transform`, which emits one 3-D row per input row) and build the
plotted points. -/
def visualize_query_context (sq : ℚ → ℚ)
    (pcaT : List (List ℚ) → List (List ℚ))
    (background_vectors : List (List ℚ)) (query_vector : List ℚ)
    (retrieved_items : List PineconeMatch) : Option (List ProjectedPoint) :=
  let kept := retrieved_items.filter hasValues
  let vectors := background_vectors ++ kept.map (fun item => item.values.getD [])
    ++ [query_vector]
  let labels := background_vectors.map (fun _ => "Latent Background")
    ++ kept.map (fun item => item.title.getD "Match") ++ ["Your Vision"]
  let types := background_vectors.map (fun _ => "Universe")
    ++ kept.map (fun _ => "Memory") ++ ["Sensation"]
  let sizes := background_vectors.map (fun _ => 3)
    ++ kept.map (fun _ => 10) ++ [15]
  if vectors.length < 3 then none
  else
    some (mkPoints (pcaT (fit_transform sq vectors)) labels types sizes)

/-- C1: an embedding failure (exception, hence `[]` from `get_embedding`,
or an empty embedding) makes `retrieve_poems` return `[]` without ever
consulting the index. -/
theorem hC1_retrieve_empty_on_embed_failure
    (embedSvc : EmbedSvc) (indexSvc : IndexSvc) (q : String) (k : ℕ)
    (hfail : (∃ e, embedSvc q = .error e) ∨ embedSvc q = .ok []) :
    retrieve_poems embedSvc indexSvc q k = [] := by
  rcases hfail with ⟨e, he⟩ | he <;>
    simp [retrieve_poems, get_embedding, he]

theorem hC1_witness :
    ((∃ e, (fun (_ : String) => (Except.error "boom" : Except String (List ℚ))) "query" = .error e) ∨
      (fun (_ : String) => (Except.error "boom" : Except String (List ℚ))) "query" = .ok []) ∧
    retrieve_poems (fun _ => .error "boom")
      (fun _ _ => .ok [⟨some [1], some "t", 1⟩]) "query" 3 = [] := by
  refine ⟨Or.inl ⟨"boom", rfl⟩, ?_⟩
  exact hC1_retrieve_empty_on_embed_failure _ _ _ _ (Or.inl ⟨"boom", rfl⟩)

/-- C5: when the embedding succeeds with a non-empty vector and the index
answers with `ms`, `retrieve_poems` returns exactly `ms` — same
elements, same (index-assigned) order, never re-sorted; its length is at
most `top_k` whenever the index response respects `top_k`; and a
zero-match response yields `[]`, not an error.  (`default_top_k = 3` is
the default for interactive retrieval.) -/
theorem hC5_retrieve_returns_index_order
    (embedSvc : EmbedSvc) (indexSvc : IndexSvc) (q : String) (k : ℕ)
    (v : List ℚ) (ms : List PineconeMatch)
    (hv : embedSvc q = .ok v) (hne : v ≠ [])
    (hm : indexSvc v k = .ok ms) :
    retrieve_poems embedSvc indexSvc q k = ms ∧
    (ms.length ≤ k → (retrieve_poems embedSvc indexSvc q k).length ≤ k) := by
  have hres : retrieve_poems embedSvc indexSvc q k = ms := by
    by_cases hz : ms = [] <;>
      simp [retrieve_poems, get_embedding, hv, hne, hm, hz, retrieve_fold_eq]
  exact ⟨hres, fun hk => hres ▸ hk⟩

theorem hC5_witness :
    retrieve_poems (fun _ => .ok [1, 2])
      (fun _ _ => .ok [⟨some [3], some "a", 9⟩, ⟨none, none, 8⟩]) "q" 3
      = [⟨some [3], some "a", 9⟩, ⟨none, none, 8⟩] ∧
    (([⟨some [3], some "a", (9 : ℚ)⟩, ⟨none, none, 8⟩] : List PineconeMatch).length ≤ 3 →
      (retrieve_poems (fun _ => .ok [1, 2])
        (fun _ _ => .ok [⟨some [3], some "a", 9⟩, ⟨none, none, 8⟩]) "q" 3).length ≤ 3) := by
  exact (hC5_retrieve_returns_index_order
    (fun _ => .ok [1, 2])
    (fun _ _ => .ok [⟨some [3], some "a", 9⟩, ⟨none, none, 8⟩])
    "q" 3 [1, 2] [⟨some [3], some "a", 9⟩, ⟨none, none, 8⟩]
    rfl (by decide) rfl).imp id (fun h => h)

/-! ## Vision client and app-level pipeline (src/scripts/vision_client.py,
src/app.py) -/

/-- Python `s.startswith(p)`, on the character lists of the strings. -/
def pyStartsWith (s p : String) : Bool := p.data.isPrefixOf s.data

/-- Python `p in s` (substring containment), on the character lists. -/
def pyContains (s p : String) : Bool :=
  s.data.tails.any (fun t => p.data.isPrefixOf t)

/-- Outcome of the Groq chat-completions call inside `analyze_image`
(`.fail` models any exception raised inside the `try` block). -/
inductive VisionCall where
  | ok (narrative : String)
  | fail (msg : String)
deriving DecidableEq

/-- `vision_client.analyze_image` (src/scripts/vision_client.py lines
110–197): `""` when the image is `None`; the generated narrative on
success; `"ERROR: " + str(e)` when anything inside the `try` block
raises.  The function itself never propagates an exception. -/
def analyze_image (hasImage : Bool) (call : VisionCall) : String :=
  if hasImage = false then ""
  else
    match call with
    | .ok narrative => narrative
    | .fail e => "ERROR: " ++ e

/-- The body of `app.run_vision_cached` (src/app.py lines 34–40): write
the upload to `temp_input.jpg` and run `analyze_image` on it; a raised
exception (modelled by `ioErr = some e`, e.g. a failing file write) is
caught and reported as `"Error: " + str(e)` — note the different prefix.
In the app flow the image argument is never `None`. -/
def run_vision_body (ioErr : Option String) (call : VisionCall) : String :=
  match ioErr with
  | some e => "Error: " ++ e
  | none => analyze_image true call

/-- The app's narrative error check (src/app.py line 155):
`narrative.startswith("ERROR:") or "Error:" in narrative`. -/
def narrativeError (n : String) : Bool :=
  pyStartsWith n "ERROR:" || pyContains n "Error:"

/-- Python truthiness of an optional narrative string (`None` and `""`
are falsy). -/
def truthyStr : Option String → Bool
  | some n => n != ""
  | none => false

/-- Python truthiness of an optional list (`None` and `[]` are falsy). -/
def truthyList {α : Type} : Option (List α) → Bool
  | some l => !l.isEmpty
  | none => false

/-- The relevant slots of `st.session_state` plus the two `st.cache_data`
caches, for a fixed uploaded image (`last_upload_id` unchanged, so the
reset branch of src/app.py lines 109–116 does not fire). -/
structure SessionState where
  narrative : Option String
  retrieved_items : Option (List PineconeMatch)
  query_vector : Option (List ℚ)
  visionCache : Option String
  universeCache : Option (List (List ℚ))
deriving DecidableEq

/-- Fresh session: every slot `None`, both caches cold. -/
def initialState : SessionState :=
  ⟨none, none, none, none, none⟩

/-- How one script run of the processing pipeline ends: ran to the end of
the card, halted at `st.stop()`, or died on an uncaught exception. -/
inductive Halt where
  | finished
  | stopped
  | crashed (msg : String)
deriving DecidableEq

/-- Result of one script run: updated session state, number of external
service calls issued (embedding, index query, vision), and how it ended. -/
structure PipeResult where
  state : SessionState
  calls : ℕ
  halt : Halt
deriving DecidableEq

/-- Python keyword-argument acceptance: a call is well-formed only when
every supplied keyword names a declared parameter; otherwise the call
raises `TypeError`. -/
def pythonCallOk (params kwargs : List String) : Bool :=
  kwargs.all (fun k => params.contains k)

/-- Keyword parameters of `LatentSpaceVisualizer.__init__`
(src/scripts/visualizer.py line 26: `def __init__(self)` — none). -/
def latentVisualizer_kwparams : List String := []

/-- Keyword arguments of the construction in src/app.py line 172:
`LatentSpaceVisualizer(background_vectors=universe)`. -/
def app_viz_kwargs : List String := ["background_vectors"]

def typeErrorMsg : String :=
  "TypeError: __init__() got an unexpected keyword argument"

/-- `LatentSpaceVisualizer.__init__` called with the given keyword
arguments: if the call is well-formed the body runs and loads the
visualizer's own background from `fetch_universe_vectors()` (it takes no
data from the caller); otherwise Python raises `TypeError` before the body
runs. -/
def latentSpaceVisualizer_init (embedSvc : EmbedSvc) (indexSvc : IndexSvc)
    (kwargs : List String) : Except String (List (List ℚ)) :=
  if pythonCallOk latentVisualizer_kwparams kwargs then
    .ok (fetch_universe_vectors embedSvc indexSvc)
  else
    .error typeErrorMsg

/-- External calls issued by one invocation of `retrieve_poems`: one
embedding call, plus one index query unless the embedding came back
empty. -/
def retrieve_calls (embedSvc : EmbedSvc) (q : String) : ℕ :=
  1 + (if get_embedding embedSvc q = [] then 0 else 1)

/-- `run_vision_cached` behind its `st.cache_data` decorator: a cache hit
returns the memoised string (error strings included) at zero external
calls; a miss runs the body, memoises the result, and issues one vision
call unless the exception struck before the model call. -/
def run_vision_cached (cache : Option String) (ioErr : Option String)
    (call : VisionCall) : String × Option String × ℕ :=
  match cache with
  | some v => (v, some v, 0)
  | none =>
    let r := run_vision_body ioErr call
    (r, some r, match ioErr with | some _ => 0 | none => 1)

/-- The visualization block of src/app.py lines 163–177: runs only when
`retrieved_items` is truthy (and the visualizer/audio import succeeded,
taken as given here); fetches the universe through the
`load_universe_vectors` cache, then evaluates
`LatentSpaceVisualizer(background_vectors=universe)` — which raises
`TypeError`, because `__init__` declares no such parameter, so the
projection call below it is never reached.  (The `.ok` branch of the
constructor is unreachable for this call, see
`hC6_visualizer_never_given_background`.) -/
def vizStep (embedSvc : EmbedSvc) (indexSvc : IndexSvc)
    (s : SessionState) : SessionState × ℕ × Halt :=
  if truthyList s.retrieved_items then
    let uni :=
      match s.universeCache with
      | some u => u
      | none => load_universe_vectors embedSvc indexSvc
    let c : ℕ :=
      match s.universeCache with
      | some _ => 0
      | none => retrieve_calls embedSvc universe_query
    let s2 := { s with universeCache := some uni }
    match latentSpaceVisualizer_init embedSvc indexSvc app_viz_kwargs with
    | .error m => (s2, c, .crashed m)
    | .ok _ => (s2, c, .finished)
  else (s, 0, .finished)

/-- One script run of the processing pipeline (src/app.py lines 140–177)
for a fixed image: the vision step gated on a falsy narrative and served
through its cache; the error check (`st.stop()` on an error-marked
narrative); the retrieval step gated on falsy `retrieved_items`, issuing
`retrieve_poems` plus one further `get_embedding` call; then the
visualization block.  (The dedented `with st.spinner` body at line 166 is
read here with the evidently intended indentation — the spinner context
around the two retrieval assignments.  As committed, that line is an
`IndentationError`, so the committed file never executes this pipeline;
the parse-level model below settles the committed behaviour, and this
definition serves the warmed-session evaluation of the orchestration
claim.) -/
def pipelineStep (ioErr : Option String) (call : VisionCall)
    (embedSvc : EmbedSvc) (indexSvc : IndexSvc) (s : SessionState) :
    PipeResult :=
  let v :=
    if truthyStr s.narrative then (s.narrative.getD "", s.visionCache, 0)
    else run_vision_cached s.visionCache ioErr call
  let narr := v.1
  let s1 := { s with narrative := some narr, visionCache := v.2.1 }
  let c1 := v.2.2
  if narr = "" then
    let r := vizStep embedSvc indexSvc s1
    ⟨r.1, c1 + r.2.1, r.2.2⟩
  else if narrativeError narr then ⟨s1, c1, .stopped⟩
  else
    let s2c :=
      if truthyList s1.retrieved_items then (s1, 0)
      else
        let items := retrieve_poems embedSvc indexSvc narr default_top_k
        let qv := get_embedding embedSvc narr
        ({ s1 with retrieved_items := some items, query_vector := some qv },
          retrieve_calls embedSvc narr + 1)
    let r := vizStep embedSvc indexSvc s2c.1
    ⟨r.1, c1 + s2c.2 + r.2.1, r.2.2⟩

/-! ### The committed retrieval block at the parse level

`pipelineStep` above reads src/app.py line 166 with the evidently intended
indentation.  The committed file itself is settled at the level where it
actually fails: its literal line layout against Python's indented-block
rule. -/

/-- One physical source line: its number in the file, its indentation in
spaces, whether it is blank/whitespace-only, and whether it is a
compound-statement header (ends in `:` and so opens a block). -/
structure SrcLine where
  lineNo : ℕ
  indent : ℕ
  isBlank : Bool
  opensBlock : Bool
deriving DecidableEq

/-- The retrieval block of src/app.py exactly as committed, lines
165–169: `if not st.session_state.retrieved_items:` at indent 16; `with
st.spinner(...):` at indent 20; a whitespace-only line; then the two
retrieval assignments at indent 20 — the same indentation as the `with`
header, not inside it. -/
def app_retrieval_block_lines : List SrcLine :=
  [⟨165, 16, false, true⟩,
   ⟨166, 20, false, true⟩,
   ⟨167, 24, true, false⟩,
   ⟨168, 20, false, false⟩,
   ⟨169, 20, false, false⟩]

/-- Python's indented-block rule for the header at position `k`: the next
non-blank line after it must be indented strictly deeper than the header
(blank and whitespace-only lines do not count as statements). -/
def headerHasIndentedBody (lines : List SrcLine) (k : ℕ) : Bool :=
  match lines.get? k, (lines.drop (k + 1)).find? (fun l => !l.isBlank) with
  | some h, some b => h.indent < b.indent
  | _, _ => false

/-- A line layout parses only if every block-opening header has an
indented body; a header without one is an `IndentationError` and the whole
file is rejected before anything runs. -/
def pythonIndentOk (lines : List SrcLine) : Bool :=
  (List.range lines.length).all (fun k =>
    match lines.get? k with
    | some h => !h.opensBlock || headerHasIndentedBody lines k
    | none => true)

/-! ## Projection claims (C2, C3, C10) -/

theorem mkPoints_columns :
    ∀ (cs : List (List ℚ)) (ls ts : List String) (ss : List ℕ),
      cs.length = ls.length → cs.length = ts.length → cs.length = ss.length →
      (mkPoints cs ls ts ss).map (fun p => p.coords) = cs ∧
      (mkPoints cs ls ts ss).map (fun p => p.label) = ls ∧
      (mkPoints cs ls ts ss).map (fun p => p.ptype) = ts ∧
      (mkPoints cs ls ts ss).map (fun p => p.size) = ss := by
  intro cs
  induction cs with
  | nil =>
    intro ls ts ss h1 h2 h3
    cases ls <;> cases ts <;> cases ss <;> simp_all [mkPoints]
  | cons c cs ih =>
    intro ls ts ss h1 h2 h3
    cases ls with
    | nil => simp at h1
    | cons l ls =>
      cases ts with
      | nil => simp at h2
      | cons t ts =>
        cases ss with
        | nil => simp at h3
        | cons s ss =>
          simp only [List.length_cons, Nat.succ.injEq] at h1 h2 h3
          obtain ⟨e1, e2, e3, e4⟩ := ih ls ts ss h1 h2 h3
          simp [mkPoints, e1, e2, e3, e4]

theorem fit_transform_length (sq : ℚ → ℚ) (X : List (List ℚ)) :
    (fit_transform sq X).length = X.length := by
  simp [fit_transform]

/-- Shape of a successful projection: one point per assembled input point,
in assembly order, columns carried through positionally. -/
theorem visualize_spec (sq : ℚ → ℚ)
    (pcaT : List (List ℚ) → List (List ℚ))
    (bg : List (List ℚ)) (q : List ℚ) (items : List PineconeMatch)
    (hlen : ∀ X, (pcaT X).length = X.length)
    (hge : 3 ≤ bg.length + (items.filter hasValues).length + 1) :
    ∃ pts, visualize_query_context sq pcaT bg q items = some pts ∧
      pts.length = bg.length + (items.filter hasValues).length + 1 ∧
      pts.map (fun p => p.label) =
        bg.map (fun _ => "Latent Background")
          ++ (items.filter hasValues).map (fun item => item.title.getD "Match")
          ++ ["Your Vision"] ∧
      pts.map (fun p => p.ptype) =
        bg.map (fun _ => "Universe")
          ++ (items.filter hasValues).map (fun _ => "Memory") ++ ["Sensation"] ∧
      pts.map (fun p => p.size) =
        bg.map (fun _ => 3) ++ (items.filter hasValues).map (fun _ => 10)
          ++ [15] := by
  have hvlen :
      (bg ++ (items.filter hasValues).map (fun item => item.values.getD [])
        ++ [q]).length = bg.length + (items.filter hasValues).length + 1 := by
    simp only [List.length_append, List.length_map, List.length_cons,
      List.length_nil]
  have hnot : ¬ (bg ++ (items.filter hasValues).map (fun item => item.values.getD [])
      ++ [q]).length < 3 := by
    rw [hvlen]; omega
  have hclen : (pcaT (fit_transform sq
      (bg ++ (items.filter hasValues).map (fun item => item.values.getD [])
        ++ [q]))).length = bg.length + (items.filter hasValues).length + 1 := by
    rw [hlen, fit_transform_length, hvlen]
  obtain ⟨e1, e2, e3, e4⟩ := mkPoints_columns
    (pcaT (fit_transform sq
      (bg ++ (items.filter hasValues).map (fun item => item.values.getD []) ++ [q])))
    (bg.map (fun _ => "Latent Background")
      ++ (items.filter hasValues).map (fun item => item.title.getD "Match")
      ++ ["Your Vision"])
    (bg.map (fun _ => "Universe")
      ++ (items.filter hasValues).map (fun _ => "Memory") ++ ["Sensation"])
    (bg.map (fun _ => 3) ++ (items.filter hasValues).map (fun _ => 10) ++ [15])
    (by simpa using hclen) (by simpa using hclen) (by simpa using hclen)
  refine ⟨_, by simp only [visualize_query_context]; rw [if_neg hnot], ?_, e2, e3, e4⟩
  have h := congrArg List.length e2
  simp only [List.length_map] at h
  rw [h]
  simp only [List.length_append, List.length_map, List.length_cons,
    List.length_nil]

/-- C2: fewer than 3 assembled points (background + kept references +
query) makes `visualize_query_context` return `none`, a defined empty
result rather than an exception. -/
theorem hC2_too_few_points_none (sq : ℚ → ℚ)
    (pcaT : List (List ℚ) → List (List ℚ))
    (bg : List (List ℚ)) (q : List ℚ) (items : List PineconeMatch)
    (hsize : bg.length + (items.filter hasValues).length + 1 < 3) :
    visualize_query_context sq pcaT bg q items = none := by
  have hvlen :
      (bg ++ (items.filter hasValues).map (fun item => item.values.getD [])
        ++ [q]).length < 3 := by
    simpa using hsize
  simp only [visualize_query_context]
  rw [if_pos hvlen]

theorem hC2_witness :
    ([([1, 2] : List ℚ)] : List (List ℚ)).length
        + (([] : List PineconeMatch).filter hasValues).length + 1 < 3 ∧
    visualize_query_context id (fun X => X) [[1, 2]] [3, 4] [] = none :=
  ⟨by decide,
    hC2_too_few_points_none id (fun X => X) [[1, 2]] [3, 4] [] (by decide)⟩

/-- C3: a successful projection emits exactly one point per assembled
input point, in assembly order — all background points first (label
"Latent Background", size 3), then one point per retrieved reference
labelled with its title (size 10), and the query point last with label
"Your Vision" (size 15).  Stated for reference lists whose items all carry
a `'values'` key, and for any PCA reduction emitting one output row per
input row. -/
theorem hC3_projection_order (sq : ℚ → ℚ)
    (pcaT : List (List ℚ) → List (List ℚ))
    (bg : List (List ℚ)) (q : List ℚ) (items : List PineconeMatch)
    (hvals : ∀ it ∈ items, hasValues it = true)
    (hlen : ∀ X, (pcaT X).length = X.length)
    (hge : 3 ≤ bg.length + items.length + 1) :
    ∃ pts, visualize_query_context sq pcaT bg q items = some pts ∧
      pts.length = bg.length + items.length + 1 ∧
      pts.map (fun p => p.label) =
        bg.map (fun _ => "Latent Background")
          ++ items.map (fun item => item.title.getD "Match")
          ++ ["Your Vision"] ∧
      pts.map (fun p => p.ptype) =
        bg.map (fun _ => "Universe") ++ items.map (fun _ => "Memory")
          ++ ["Sensation"] ∧
      pts.map (fun p => p.size) =
        bg.map (fun _ => 3) ++ items.map (fun _ => 10) ++ [15] ∧
      (pts.map (fun p => p.label)).getLast? = some "Your Vision" := by
  have hfil : items.filter hasValues = items := List.filter_eq_self.mpr hvals
  obtain ⟨pts, h1, h2, h3, h4, h5⟩ :=
    visualize_spec sq pcaT bg q items hlen (by rw [hfil]; omega)
  rw [hfil] at h2 h3 h4 h5
  refine ⟨pts, h1, h2, h3, h4, h5, ?_⟩
  rw [h3]
  exact List.getLast?_concat _

/-- Witness for C3, at the spec's concrete instance: a 50-point mock
background, 3 retrieved references and one query vector yield exactly 54
projected points, the last labelled "Your Vision". -/
theorem hC3_witness :
    ∃ pts, visualize_query_context id (fun X => X.map (fun _ => [0, 0, 0]))
        (List.replicate 50 [1, 2, 3]) [7, 8, 9]
        [⟨some [1, 0, 0], some "A", 3⟩, ⟨some [0, 1, 0], some "B", 2⟩,
          ⟨some [0, 0, 1], some "C", 1⟩] = some pts ∧
      pts.length = 54 ∧
      (pts.map (fun p => p.label)).getLast? = some "Your Vision" := by
  obtain ⟨pts, h1, h2, _, _, _, h6⟩ :=
    hC3_projection_order id (fun X => X.map (fun _ => [0, 0, 0]))
      (List.replicate 50 [1, 2, 3]) [7, 8, 9]
      [⟨some [1, 0, 0], some "A", 3⟩, ⟨some [0, 1, 0], some "B", 2⟩,
        ⟨some [0, 0, 1], some "C", 1⟩]
      (by decide) (by intro X; simp) (by simp)
  exact ⟨pts, h1, by simpa using h2, h6⟩

/-! ## Standardization (C4) -/

theorem column_const (X : List (List ℚ)) (j : ℕ) (c : ℚ)
    (hconst : ∀ row ∈ X, row[j]? = some c) :
    column X j = List.replicate X.length c := by
  rw [List.eq_replicate_iff]
  constructor
  · simp [column]
  · intro b hb
    simp only [column, List.mem_map] at hb
    obtain ⟨row, hrow, hrb⟩ := hb
    rw [List.getD_eq_getElem?_getD, hconst row hrow] at hrb
    simpa using hrb.symm

theorem colMean_const (X : List (List ℚ)) (j : ℕ) (c : ℚ)
    (hne : X ≠ []) (hconst : ∀ row ∈ X, row[j]? = some c) :
    colMean X j = c := by
  have hcol := column_const X j c hconst
  have hn : (X.length : ℚ) ≠ 0 := by
    exact_mod_cast (List.length_pos.mpr hne).ne'
  rw [colMean, hcol]
  simp only [List.sum_replicate, List.length_replicate, smul_eq_mul]
  field_simp

theorem colVar_const (X : List (List ℚ)) (j : ℕ) (c : ℚ)
    (hne : X ≠ []) (hconst : ∀ row ∈ X, row[j]? = some c) :
    colVar X j = 0 := by
  have hcol := column_const X j c hconst
  rw [colVar, colMean_const X j c hne hconst, hcol]
  simp

/-- C4: a dimension that is constant across all assembled points has zero
variance, so sklearn's zero-variance guard sets its scale to `1` — the
division is never by zero — and the standardized value of that dimension
is exactly `0` for every point. -/
theorem hC4_constant_dim_standardizes_to_zero (sq : ℚ → ℚ)
    (X : List (List ℚ)) (j : ℕ) (c : ℚ)
    (hne : X ≠ []) (hconst : ∀ row ∈ X, row[j]? = some c) :
    colScale sq X j = 1 ∧ colScale sq X j ≠ 0 ∧
      ∀ row ∈ fit_transform sq X, row[j]? = some 0 := by
  have hvar := colVar_const X j c hne hconst
  have hscale : colScale sq X j = 1 := by simp [colScale, hvar]
  refine ⟨hscale, by simp [hscale], ?_⟩
  intro row hrow
  simp only [fit_transform, List.mem_map] at hrow
  obtain ⟨orig, horig, hmap⟩ := hrow
  have hj : j < orig.length := by
    have := hconst orig horig
    exact (List.getElem?_eq_some.mp this).1
  subst hmap
  rw [List.getElem?_map, List.getElem?_range hj]
  simp [colMean_const X j c hne hconst, hscale, hconst orig horig]

theorem hC4_witness :
    (([[1, 5], [2, 5], [3, 5]] : List (List ℚ)) ≠ [] ∧
      ∀ row ∈ ([[1, 5], [2, 5], [3, 5]] : List (List ℚ)), row[1]? = some 5) ∧
    colScale id [[1, 5], [2, 5], [3, 5]] 1 = 1 ∧
    colScale id [[1, 5], [2, 5], [3, 5]] 1 ≠ 0 ∧
    ∀ row ∈ fit_transform id [[1, 5], [2, 5], [3, 5]], row[1]? = some 0 := by
  refine ⟨⟨by decide, by decide⟩, ?_⟩
  exact hC4_constant_dim_standardizes_to_zero id [[1, 5], [2, 5], [3, 5]] 1 5
    (by decide) (by decide)

/-! ## Silent dropping of items without a `'values'` key (C10) -/

/-- C10: only retrieved items carrying a `'values'` key become Reference
points — a successful projection has exactly
`len(background) + #{items with 'values'} + 1` points; items without the
key are silently dropped (two retrieval results with the same kept items
project identically); and the universe loader likewise keeps only result
items carrying a `'values'` key. -/
theorem hC10_values_key_filtering (sq : ℚ → ℚ)
    (pcaT : List (List ℚ) → List (List ℚ))
    (bg : List (List ℚ)) (q : List ℚ) (items : List PineconeMatch)
    (hlen : ∀ X, (pcaT X).length = X.length) :
    (∀ pts, visualize_query_context sq pcaT bg q items = some pts →
      pts.length = bg.length + (items.filter hasValues).length + 1) ∧
    (∀ its2 : List PineconeMatch,
      its2.filter hasValues = items.filter hasValues →
      visualize_query_context sq pcaT bg q its2 =
        visualize_query_context sq pcaT bg q items) ∧
    (∀ (embedSvc : EmbedSvc) (indexSvc : IndexSvc),
      fetch_universe_vectors embedSvc indexSvc =
        ((retrieve_poems embedSvc indexSvc universe_query 50).filter
          hasValues).map (fun item => item.values.getD [])) := by
  refine ⟨?_, ?_, fun _ _ => rfl⟩
  · intro pts hpts
    by_cases hge : 3 ≤ bg.length + (items.filter hasValues).length + 1
    · obtain ⟨pts2, h1, h2, _⟩ := visualize_spec sq pcaT bg q items hlen hge
      rw [hpts] at h1
      injection h1 with h1
      rw [h1]
      exact h2
    · rw [hC2_too_few_points_none sq pcaT bg q items (by omega)] at hpts
      exact absurd hpts (by simp)
  · intro its2 hfil
    simp only [visualize_query_context, hfil]

theorem hC10_witness :
    (∀ X : List (List ℚ), (X.map (fun _ => ([0, 0, 0] : List ℚ))).length = X.length) ∧
    (∀ pts, visualize_query_context id (fun X => X.map (fun _ => [0, 0, 0]))
        [[1, 2], [3, 4]] [5, 6]
        [⟨some [7, 8], some "kept", 1⟩, ⟨none, some "dropped", 2⟩] = some pts →
      pts.length = 4) ∧
    visualize_query_context id (fun X => X.map (fun _ => [0, 0, 0]))
        [[1, 2], [3, 4]] [5, 6] [⟨some [7, 8], some "kept", 1⟩] =
      visualize_query_context id (fun X => X.map (fun _ => [0, 0, 0]))
        [[1, 2], [3, 4]] [5, 6]
        [⟨some [7, 8], some "kept", 1⟩, ⟨none, some "dropped", 2⟩] := by
  have h := hC10_values_key_filtering id (fun X => X.map (fun _ => [0, 0, 0]))
    [[1, 2], [3, 4]] [5, 6]
    [⟨some [7, 8], some "kept", 1⟩, ⟨none, some "dropped", 2⟩]
    (by intro X; simp)
  refine ⟨by intro X; simp, ?_, ?_⟩
  · intro pts hpts
    have := h.1 pts hpts
    simpa using this
  · exact h.2.1 [⟨some [7, 8], some "kept", 1⟩] (by decide)

/-! ## Vision failure signalling (C9) -/

/-- C9 counterexample: the orchestrator's caching wrapper
`run_vision_cached` reports its own failures with the prefix `"Error:"`,
not `"ERROR:"` — so not every vision-step failure path carries the single
distinct prefix `ERROR:`. -/
theorem hC9_counterexample :
    run_vision_body (some "disk full") (.ok "unused") = "Error: disk full" ∧
    pyStartsWith (run_vision_body (some "disk full") (.ok "unused"))
      "ERROR:" = false := by
  constructor
  · rfl
  · decide

/-- C9 (amended): every vision-step failure is signalled by a returned
string, never a propagated exception; `analyze_image` failures carry the
prefix `"ERROR:"`, while the `run_vision_cached` wrapper's own failures
carry the prefix `"Error:"`; both are recognised by the app's branch check
`narrative.startswith("ERROR:") or "Error:" in narrative`. -/
theorem hC9_failure_string_signalling (e : String) (call : VisionCall) :
    analyze_image true (.fail e) = "ERROR: " ++ e ∧
    pyStartsWith (analyze_image true (.fail e)) "ERROR:" = true ∧
    narrativeError (analyze_image true (.fail e)) = true ∧
    run_vision_body (some e) call = "Error: " ++ e ∧
    narrativeError (run_vision_body (some e) call) = true := by
  have hpre : ∀ (p r : String), pyStartsWith (p ++ r) p = true := by
    intro p r
    simp [pyStartsWith]
  have hcon : ∀ (p r : String), pyContains (p ++ r) p = true := by
    intro p r
    simp only [pyContains, List.any_eq_true]
    exact ⟨(p ++ r).data, (List.mem_tails _ _).mpr List.suffix_rfl, by simp⟩
  have h1 : analyze_image true (.fail e) = "ERROR: " ++ e := rfl
  have h4 : run_vision_body (some e) call = "Error: " ++ e := rfl
  have h2 : pyStartsWith (analyze_image true (.fail e)) "ERROR:" = true := by
    rw [h1]
    have := hpre "ERROR:" (" " ++ e)
    simpa [← String.append_assoc] using this
  refine ⟨h1, h2, ?_, h4, ?_⟩
  · simp [narrativeError, h2]
  · rw [h4]
    simp only [narrativeError, Bool.or_eq_true]
    right
    have := hcon "Error:" (" " ++ e)
    simpa [← String.append_assoc] using this

/-! ## Orchestration of the visualization (C6) and second-run caching
(C7) -/

/-- C6: the orchestrator does fetch the cached background sample and does
reach the projector construction after retrieval — but the invocation
`LatentSpaceVisualizer(background_vectors=universe)` (src/app.py line 172)
supplies a keyword that `__init__(self)` (src/scripts/visualizer.py line
26) does not declare, so Python raises `TypeError` there: the projector is
never constructed with the cached background (nor, per its own body,
would it use a passed background), and the run dies before any projection.
Shown both for the constructor call itself, for any services, and by
evaluating a full pipeline run on a warmed-up session. -/
theorem hC6_visualizer_never_given_background :
    pythonCallOk latentVisualizer_kwparams app_viz_kwargs = false ∧
    (∀ (embedSvc : EmbedSvc) (indexSvc : IndexSvc),
      latentSpaceVisualizer_init embedSvc indexSvc app_viz_kwargs =
        .error typeErrorMsg) ∧
    (pipelineStep none (.ok "A Serene poem") (fun _ => .ok [1])
        (fun _ _ => .ok [⟨some [1], some "t", 1⟩])
        ⟨some "A Serene poem", some [⟨some [1], some "t", 1⟩], some [1],
          some "A Serene poem", some [[1], [2]]⟩).halt =
      .crashed typeErrorMsg := by
  refine ⟨by decide, fun embedSvc indexSvc => ?_, by decide⟩
  simp [latentSpaceVisualizer_init, pythonCallOk, latentVisualizer_kwparams,
    app_viz_kwargs]

/-- C7: the committed retrieval block never runs at all — the `with
st.spinner` header on line 166 of src/app.py is followed (after a
whitespace-only line) by statements at the header's own indentation, so it
has no indented body; Python rejects the whole file with
`IndentationError` at import time.  No pipeline run, first or second,
ever executes or issues an external call, so the committed program cannot
exhibit the claimed second-run caching behaviour (nor any run at all). -/
theorem hC7_retrieval_block_does_not_parse :
    headerHasIndentedBody app_retrieval_block_lines 1 = false ∧
    pythonIndentOk app_retrieval_block_lines = false ∧
    (app_retrieval_block_lines.get? 1).map (fun l => l.lineNo) = some 166 ∧
    (app_retrieval_block_lines.get? 1).map (fun l => l.opensBlock) =
      some true := by
  refine ⟨by decide, by decide, by decide, by decide⟩

end PoeticCam
